import Mathlib

/-!
Verification development for the go-spacemesh layer-synchronization subsystem
(package `sync`): the dependency-resolution block queue (`validation_queue.go`),
the syncer's validation helpers, layer fetching and the gossip-status machinery
(`syncer.go`).

Go maps are modelled as association lists with unique keys, `types.Hash32` and
the various id types as `Nat`, and the `interface{}`-typed job keys as an
inductive sum.  Callbacks (Go closures) are modelled by an explicit callback
runner `runCb : JobID → Bool → σ → σ × Bool` threading an external state `σ`
and returning an error flag, and every queue operation additionally returns the
ordered list of events it performed (map mutations with the mutex-held flag,
callback invocations, dependency resolutions), so that trace properties can be
stated.
-/

namespace SpacemeshSync

/-- Hashes: `types.Hash32` (and block/layer/tx/atx identifiers, which are all
content-addressed or integer ids in the source) modelled as `Nat`.
`BlockID.AsHash32` is injective, so block ids are identified with their
hashes. -/
abbrev Hash := Nat

/-- A job key of the block queue.  In the source the key is an `interface{}`
holding either a `types.BlockID` (per-block jobs from `handleBlockDependencies`
and `validateBlockView`), a `types.LayerID` (layer jobs from `syncLayer` /
`getBlocks`), or a raw `types.Hash32` (randomized single-block jobs from
`fetchBlock`).  Values of distinct dynamic Go types are never equal, which the
inductive sum reflects. -/
inductive JobID where
  | block (b : Hash)
  | layer (l : Nat)
  | hashJob (h : Hash)
deriving DecidableEq

/-- Which of the four queue maps an event mutates. -/
inductive MapName where
  | dep
  | rev
  | cb
  | vis
deriving DecidableEq

/-- An event of a queue operation: a map mutation (with the flag telling
whether the queue mutex is held at that program point), a completion-callback
invocation (job, boolean outcome, mutex-held flag), or the resolution of a
dependency hash with an outcome (the relaxation wave of `updateDependencies` /
`removefromDepMaps` reaching that hash). -/
inductive Ev where
  | mut (m : MapName) (held : Bool)
  | inv (j : JobID) (v : Bool) (held : Bool)
  | res (h : Hash) (v : Bool)
deriving DecidableEq

/-- The callback invocations of an event trace, in order. -/
def invocationsOf (evs : List Ev) : List (JobID × Bool) :=
  evs.filterMap fun e =>
    match e with
    | Ev.inv j v _ => some (j, v)
    | _ => none

/-- The resolved hashes of an event trace, in order. -/
def resolutionsOf (evs : List Ev) : List (Hash × Bool) :=
  evs.filterMap fun e =>
    match e with
    | Ev.res h v => some (h, v)
    | _ => none

/-- Association-list lookup (a Go map read). -/
def getA {α β : Type} [DecidableEq α] (l : List (α × β)) (k : α) : Option β :=
  match l with
  | [] => none
  | (a, b) :: t => if a = k then some b else getA t k

/-- Association-list update (a Go map store `m[k] = v`). -/
def setA {α β : Type} [DecidableEq α] (l : List (α × β)) (k : α) (v : β) : List (α × β) :=
  match l with
  | [] => [(k, v)]
  | (a, b) :: t => if a = k then (k, v) :: t else (a, b) :: setA t k v

/-- Association-list key removal (a Go `delete(m, k)`). -/
def eraseA {α β : Type} [DecidableEq α] (l : List (α × β)) (k : α) : List (α × β) :=
  match l with
  | [] => []
  | (a, b) :: t => if a = k then eraseA t k else (a, b) :: eraseA t k

/-- Insert into a list acting as a set (a Go `m[k] = struct{}{}`), keeping the
first-insertion order. -/
def insertSet {α : Type} [DecidableEq α] (l : List α) (a : α) : List α :=
  if l.contains a then l else l ++ [a]

/-- The queue state of `blockQueue` (`validation_queue.go`): the four maps
protected by the queue mutex.  `callbacks` keeps only the set of registered
job keys; the closure a key maps to is determined by the job kind and is
supplied to each operation as the callback runner. -/
structure QState where
  depMap : List (JobID × List Hash)
  reverseDepMap : List (Hash × List JobID)
  callbacks : List JobID
  visited : List Hash
deriving DecidableEq

/-- The empty queue state (`NewValidationQueue`). -/
def QState.init : QState := ⟨[], [], [], []⟩

/-- Model of `blockQueue.inQueue`: a hash is in the queue if it has a
`reverseDepMap` entry or is in `visited`. -/
def inQueue (st : QState) (id : Hash) : Bool :=
  (getA st.reverseDepMap id).isSome || st.visited.contains id

/-- Result of a relaxation pass (`removefromDepMaps`): new queue state, new
external state, the accumulated done-queue, and the events performed. -/
structure RelaxResult (σ : Type) where
  st : QState
  s : σ
  doneB : List Hash
  evs : List Ev

/-- The body of the `for _, dep := range vq.reverseDepMap[block]` loop of
`blockQueue.removefromDepMaps`, one waiter at a time: remove `block` from the
waiter's dependency set; if the set became empty (or the waiter has no
`depMap` entry, the nil-map case), drop the entry, and if a callback is
registered run it with `valid`; a failing callback is kept (`continue`), a
successful one is deleted and, when the waiter is a `BlockID` job, its hash is
appended to the done-queue. -/
def removeFromDepMapsAux {σ : Type} (runCb : JobID → Bool → σ → σ × Bool)
    (block : Hash) (valid : Bool) :
    List JobID → QState → σ → List Hash → List Ev → RelaxResult σ
  | [], st, s, doneB, evs => ⟨st, s, doneB, evs⟩
  | dep :: rest, st, s, doneB, evs =>
    let oldSet := getA st.depMap dep
    let st1 : QState :=
      match oldSet with
      | some ds => { st with depMap := setA st.depMap dep (ds.erase block) }
      | none => st
    let evs1 := evs ++ [Ev.mut MapName.dep true]
    let emptyNow : Bool :=
      match oldSet with
      | some ds => (ds.erase block).isEmpty
      | none => true
    if emptyNow then
      let st2 : QState := { st1 with depMap := eraseA st1.depMap dep }
      let evs2 := evs1 ++ [Ev.mut MapName.dep true]
      if st2.callbacks.contains dep then
        let r := runCb dep valid s
        let evs3 := evs2 ++ [Ev.inv dep valid true]
        if r.2 then
          removeFromDepMapsAux runCb block valid rest st2 r.1 doneB evs3
        else
          let st3 : QState := { st2 with callbacks := st2.callbacks.erase dep }
          let evs4 := evs3 ++ [Ev.mut MapName.cb true]
          let doneB' :=
            match dep with
            | JobID.block b => doneB ++ [b]
            | _ => doneB
          removeFromDepMapsAux runCb block valid rest st3 r.1 doneB' evs4
      else
        removeFromDepMapsAux runCb block valid rest st2 s doneB evs2
    else
      removeFromDepMapsAux runCb block valid rest st1 s doneB evs1

/-- Model of `blockQueue.removefromDepMaps`: relax every waiter of `block` and then
delete `block` from `reverseDepMap`.  The done-queue accumulator is the
`doneBlocks` argument of the source. -/
def removefromDepMaps {σ : Type} (runCb : JobID → Bool → σ → σ × Bool)
    (block : Hash) (valid : Bool) (doneB : List Hash) (st : QState) (s : σ) :
    RelaxResult σ :=
  let waiters := (getA st.reverseDepMap block).getD []
  let r := removeFromDepMapsAux runCb block valid waiters st s doneB []
  ⟨{ r.st with reverseDepMap := eraseA r.st.reverseDepMap block }, r.s, r.doneB,
    r.evs ++ [Ev.mut MapName.rev true]⟩

/-- The drain loop of `blockQueue.updateDependencies`, fuel-indexed: pop the
head of the done-queue and relax it, until the queue is empty.  Each processed
hash is recorded as a resolution event with the wave's outcome.  The source
loop always terminates (each successful callback invocation permanently
removes one entry from `callbacks`, and only such invocations enqueue new
work); `drainFuel_measure_le` and `updateDependencies_fuel_sufficient` below
prove that `doneQueue.length + callbacks.length` bounds the number of
iterations and that the fuel `updateDependencies` supplies is above that
bound, so the fuel-indexed drain agrees with the source's unbounded loop. -/
def drainFuel {σ : Type} (runCb : JobID → Bool → σ → σ × Bool) (valid : Bool) :
    Nat → List Hash → QState → σ → QState × σ × List Ev
  | 0, _, st, s => (st, s, [])
  | _ + 1, [], st, s => (st, s, [])
  | fuel + 1, h :: rest, st, s =>
    let r := removefromDepMaps runCb h valid rest st s
    let t := drainFuel runCb valid fuel r.doneB r.st r.s
    (t.1, t.2.1, (Ev.res h valid :: r.evs) ++ t.2.2)

/-- Result of `updateDependencies`: new queue and external state plus events. -/
structure UpdResult (σ : Type) where
  st : QState
  s : σ
  evs : List Ev

/-- Model of `blockQueue.updateDependencies(block, valid)`: under the mutex, delete the
`Hash32`-keyed entries for `block` from `depMap` and `callbacks` (job keys of
dynamic type `BlockID` or `LayerID` are unaffected, only a raw `Hash32` key can
match), delete `block` from `visited`, then run the relaxation drain starting
from `block`. -/
def updateDependencies {σ : Type} (runCb : JobID → Bool → σ → σ × Bool)
    (block : Hash) (valid : Bool) (st : QState) (s : σ) : UpdResult σ :=
  let st0 : QState :=
    { depMap := eraseA st.depMap (JobID.hashJob block)
      reverseDepMap := st.reverseDepMap
      callbacks := st.callbacks.erase (JobID.hashJob block)
      visited := st.visited.erase block }
  let t := drainFuel runCb valid (st0.callbacks.length + 2) [block] st0 s
  ⟨t.1, t.2.1,
    [Ev.mut MapName.dep true, Ev.mut MapName.cb true, Ev.mut MapName.vis true] ++ t.2.2⟩

/-- Result of `addDependencies`: new queue state, the returned pending flag
(`true` = job stored with outstanding dependencies), the error flag of the
synchronously-run callback (`nil` unless the immediate path ran the callback
and it failed), the ids pushed to the block-fetch pipeline, the new external
state and the events. -/
structure AddResult (σ : Type) where
  st : QState
  s : σ
  res : Bool
  errd : Bool
  push : List Hash
  evs : List Ev

/-- The `for _, id := range blks` loop of `blockQueue.addDependencies`: a
child already in the queue is only registered in `reverseDepMap`; a child
missing from the queue and from the block store is registered and marked for
network fetch; a child found in the store is skipped. -/
def addDepsLoop (jobId : JobID) (inDB : Hash → Bool) :
    List Hash → QState → List Hash → List Hash → List Ev →
    QState × List Hash × List Hash × List Ev
  | [], st, deps, push, evs => (st, deps, push, evs)
  | id :: rest, st, deps, push, evs =>
    if inQueue st id then
      let rd := setA st.reverseDepMap id (((getA st.reverseDepMap id).getD []) ++ [jobId])
      let st' : QState := { st with reverseDepMap := rd }
      addDepsLoop jobId inDB rest st' (insertSet deps id) push
        (evs ++ [Ev.mut MapName.rev true])
    else if inDB id then
      addDepsLoop jobId inDB rest st deps push evs
    else
      let rd := setA st.reverseDepMap id (((getA st.reverseDepMap id).getD []) ++ [jobId])
      let st' : QState := { st with reverseDepMap := rd }
      addDepsLoop jobId inDB rest st' (insertSet deps id) (push ++ [id])
        (evs ++ [Ev.mut MapName.rev true])

/-- Model of `blockQueue.addDependencies(jobId, blks, finishCallback)`: under the mutex
register the callback and walk the children; after unlocking, push the unknown
ids to the fetch pipeline; if no dependency was registered, run the callback
synchronously with `true` and return `(false, its error)` without storing any
dependency set; otherwise store the dependency set (note: this store happens
after the mutex was released) and return `(true, nil)`. -/
def addDependencies {σ : Type} (runCb : JobID → Bool → σ → σ × Bool)
    (inDB : Hash → Bool) (jobId : JobID) (blks : List Hash)
    (st : QState) (s : σ) : AddResult σ :=
  let st0 : QState := { st with callbacks := insertSet st.callbacks jobId }
  let l := addDepsLoop jobId inDB blks st0 [] [] []
  let st1 := l.1
  let deps := l.2.1
  let push := l.2.2.1
  let evsL := l.2.2.2
  if deps.isEmpty then
    let r := runCb jobId true s
    ⟨st1, r.1, false, r.2, push,
      (Ev.mut MapName.cb true :: evsL) ++ [Ev.inv jobId true false]⟩
  else
    ⟨{ st1 with depMap := setA st1.depMap jobId deps }, s, true, false, push,
      (Ev.mut MapName.cb true :: evsL) ++ [Ev.mut MapName.dep false]⟩

/-! ## Blocks and the validation pipeline (`syncer.go`) -/

/-- The error values of the sync package (`errDupTx`, `errDupAtx`, … in the
source) together with the ad-hoc `fmt.Errorf` errors the modelled functions
can produce. -/
inductive SyncErr where
  | dupTx
  | dupAtx
  | noBlocksInLayer
  | noActiveSet
  | zeroActiveSet
  | invalidATXID
  | eligibilityFailed
  | handleAtxsFailed
  | refBlockFailed
  | dataAvailabilityFailed
  | viewInvalid
  | noPeers
  | noLayerHashes
  | interrupted
  | addFailed
  | blocksNotReceived
deriving DecidableEq

/-- The fields of `types.Block` the sync core reads: layer-DAG parents
(`ViewEdges`), transaction ids, the optional active set, the optional
ref-block pointer and the activation id. -/
structure Block where
  id : Hash
  viewEdges : List Hash
  txIds : List Nat
  activeSet : Option (List Nat)
  refBlock : Option Hash
  atxid : Nat
deriving DecidableEq

/-- The sentinel `types.EmptyATXID` (the all-zero hash), as a distinguished
value. -/
def emptyATXID : Nat := 0

/-- The duplicate-scan of `validateUniqueTxAtx`: walk the list keeping the set
of seen ids, reporting whether an id repeats. -/
def dupScan : List Nat → List Nat → Bool
  | _, [] => false
  | seen, x :: t => if seen.contains x then true else dupScan (seen ++ [x]) t

/-- Model of `validateUniqueTxAtx`: reject a repeated `TransactionID`, then — only when
`ActiveSet` is non-nil — a repeated `ATXID`.  A nil or empty active set passes
this check. -/
def validateUniqueTxAtx (b : Block) : Option SyncErr :=
  if dupScan [] b.txIds then some SyncErr.dupTx
  else
    match b.activeSet with
    | some l => if dupScan [] l then some SyncErr.dupAtx else none
    | none => none

/-- Model of `Syncer.fastValidation`: block eligibility (the external
`BlockSignedAndEligible`, supplied as the `eligible` flag) followed by
`validateUniqueTxAtx`. -/
def fastValidation (eligible : Bool) (b : Block) : Option SyncErr :=
  if ¬ eligible then some SyncErr.eligibilityFailed
  else validateUniqueTxAtx b

/-- Model of `Syncer.fetchAllReferencedAtxs`: a non-nil active set must be non-empty
(`errZeroActiveSet`), a nil active set requires a ref-block
(`errNoActiveSet`); otherwise the collected atx ids are fetched through the
atx queue, whose success is the external `handleAtxsOk`. -/
def fetchAllReferencedAtxs (handleAtxsOk : Bool) (b : Block) : Option SyncErr :=
  match b.activeSet with
  | some l =>
    if 0 < l.length then
      if handleAtxsOk then none else some SyncErr.handleAtxsFailed
    else some SyncErr.zeroActiveSet
  | none =>
    if b.refBlock = none then some SyncErr.noActiveSet
    else if handleAtxsOk then none else some SyncErr.handleAtxsFailed

/-- Model of `Syncer.fetchBlockDataForValidation`: fetch the ref-block if one is
declared (success is the external `refFetchOk`), then fetch all referenced
atxs. -/
def fetchBlockDataForValidation (refFetchOk handleAtxsOk : Bool) (b : Block) :
    Option SyncErr :=
  if b.refBlock.isSome then
    if refFetchOk then fetchAllReferencedAtxs handleAtxsOk b
    else some SyncErr.refBlockFailed
  else fetchAllReferencedAtxs handleAtxsOk b

/-- Model of `Syncer.blockSyntacticValidation`: reject a golden or empty `ATXID`, fetch
referenced data, run `fastValidation`, then data availability and view
validation (both external, supplied as flags). -/
def blockSyntacticValidation (golden : Nat)
    (eligible refFetchOk handleAtxsOk dataAvailOk viewOk : Bool) (b : Block) :
    Option SyncErr :=
  if b.atxid = emptyATXID ∨ b.atxid = golden then some SyncErr.invalidATXID
  else
    match fetchBlockDataForValidation refFetchOk handleAtxsOk b with
    | some e => some e
    | none =>
      match fastValidation eligible b with
      | some e => some e
      | none =>
        if ¬ dataAvailOk then some SyncErr.dataAvailabilityFailed
        else if ¬ viewOk then some SyncErr.viewInvalid
        else none

/-! ## Peer fan-out fetchers (`fetchLayerBlockIds`, `fetchEpochAtxs`,
`fetchLayerHashes`, `getLayerFromNeighbors`) -/

/-- Peers are identified by a `Nat`. -/
abbrev Peer := Nat

/-- Accumulate a response's ids into the `(idSet, ids)` pair, skipping ids
already present (the `idSet` deduplication loop shared by
`fetchLayerBlockIds` and `fetchEpochAtxs`). -/
def addIds : List Nat × List Nat → List Nat → List Nat × List Nat
  | acc, [] => acc
  | (idSet, ids), b :: t =>
    if idSet.contains b then addIds (idSet, ids) t
    else addIds (idSet ++ [b], ids ++ [b]) t

/-- The `NextHash` peer loop shared by `fetchLayerBlockIds` and
`fetchEpochAtxs`: ask the peers for the id list in order; a timed-out peer
(`none`) is skipped; the first response received is hashed with `calcHash` and
compared against the requested hash `h` — on mismatch the source only logs a
warning — after which its ids are merged into the accumulator and the loop
breaks to the next hash. -/
def collectIdsForHash (calcHash : List Nat → Hash) (resp : Peer → Option (List Nat))
    (h : Hash) : List Peer → List Nat × List Nat → List Nat × List Nat
  | [], acc => acc
  | p :: rest, acc =>
    match resp p with
    | none => collectIdsForHash calcHash resp h rest acc
    | some v =>
      let res := calcHash v
      -- `if h != res` in the source emits a warning and nothing else;
      -- the response is merged unconditionally and the hash loop breaks.
      let _ := res
      addIds acc v

/-- Model of `Syncer.fetchLayerBlockIds`: for each distinct layer hash and its peers,
collect one response and merge the deduplicated block ids.  `m` is the map of
`fetchLayerHashes` in some iteration order. -/
def fetchLayerBlockIds (calcHash : List Nat → Hash) (resp : Peer → Option (List Nat))
    (m : List (Hash × List Peer)) : List Nat :=
  (m.foldl (fun acc hp => collectIdsForHash calcHash resp hp.1 hp.2 acc) ([], [])).2

/-- Model of `Syncer.fetchEpochAtxs`: identical control flow to `fetchLayerBlockIds`
over epoch atx ids (`CalcATXIdsHash32` supplied as `calcHash`). -/
def fetchEpochAtxs (calcHash : List Nat → Hash) (resp : Peer → Option (List Nat))
    (m : List (Hash × List Peer)) : List Nat :=
  (m.foldl (fun acc hp => collectIdsForHash calcHash resp hp.1 hp.2 acc) ([], [])).2

/-- The empty-layer sentinel `emptyLayer = types.Layer{}.Hash()`, a
distinguished hash value. -/
def emptyLayerHash : Hash := 0

/-- Model of `Syncer.fetchLayerHashes`: group the `(peer, hash)` pairs produced by the
peers-worker by hash, ignoring pairs carrying the empty-layer sentinel; when
no pair carries a non-sentinel hash, fail with `errNoBlocksInLayer`. -/
def fetchLayerHashes (responses : List (Peer × Hash)) :
    Except SyncErr (List (Hash × List Peer)) :=
  let m := responses.foldl
    (fun m pr =>
      if pr.2 ≠ emptyLayerHash then setA m pr.2 ((getA m pr.2).getD [] ++ [pr.1])
      else m) []
  if ¬ responses.any (fun pr => pr.2 ≠ emptyLayerHash) then
    Except.error SyncErr.noBlocksInLayer
  else if m.isEmpty then Except.error SyncErr.noLayerHashes
  else Except.ok m

/-- Model of `Syncer.getLayerFromNeighbors(lyr)`, up to the point the claim concerns:
fail with "no peers" when the peer snapshot is empty; convert
`errNoBlocksInLayer` from `fetchLayerHashes` into a synthetic empty layer
(`types.NewLayer`, zero blocks) with a nil error; propagate any other hash
failure; otherwise continue with the id fetch / block sync pipeline, which is
external to the claim and supplied as the continuation `rest`. -/
def getLayerFromNeighbors (peersList : List Peer) (responses : List (Peer × Hash))
    (rest : List (Hash × List Peer) → Except SyncErr (Nat × List Nat)) (lyr : Nat) :
    Except SyncErr (Nat × List Nat) :=
  if peersList.isEmpty then Except.error SyncErr.noPeers
  else
    match fetchLayerHashes responses with
    | Except.error e =>
      if e = SyncErr.noBlocksInLayer then Except.ok (lyr, [])
      else Except.error e
    | Except.ok m => rest m

/-! ## Gossip status and the await channel (`Await`, `notifySubscribers`,
`setGossipBufferingStatus`) -/

/-- The gossip admission status (`pending`, `inProgress`, `done`,
`inProgress2`). -/
inductive GStatus where
  | pending
  | inProgress
  | done
  | inProgress2
deriving DecidableEq

/-- The Go comparison `status == done`. -/
def isDone : GStatus → Bool
  | GStatus.done => true
  | _ => false

/-- The observable state of the syncer's await machinery: the current status,
the identity (generation) of the current `awaitCh` channel, and whether that
channel has been closed. -/
structure GossipState where
  gossipSynced : GStatus
  awaitGen : Nat
  awaitClosed : Bool
deriving DecidableEq

/-- Initial state: `NewSync` starts with status `pending` and a fresh open channel. -/
def GossipState.init : GossipState := ⟨GStatus.pending, 0, false⟩

/-- Model of `Syncer.notifySubscribers(prevStatus, status)`: when doneness does not
change, do nothing; on a transition to `done`, close the current channel; on
a transition away from `done`, install a fresh open channel. -/
def notifySubscribers (prev next : GStatus) (s : GossipState) : GossipState :=
  if isDone next = isDone prev then s
  else if isDone next = true then { s with awaitClosed := true }
  else { s with awaitGen := s.awaitGen + 1, awaitClosed := false }

/-- Model of `Syncer.setGossipBufferingStatus(status)`: a no-op when the status is
unchanged; otherwise notify subscribers and store the new status. -/
def setGossipBufferingStatus (next : GStatus) (s : GossipState) : GossipState :=
  if next = s.gossipSynced then s
  else
    let s' := notifySubscribers s.gossipSynced next s
    { s' with gossipSynced := next }

/-- Model of `Syncer.Await()`: it returns the current channel: its identity and whether it
is closed. -/
def Await (s : GossipState) : Nat × Bool := (s.awaitGen, s.awaitClosed)

/-- A sequence of `setGossipBufferingStatus` calls applied in order. -/
def applyStatusList (l : List GStatus) (s : GossipState) : GossipState :=
  l.foldl (fun s st => setGossipBufferingStatus st s) s

/-! ## `getBlocks` (the public `GetBlocks` entry point) -/

/-- What the blocking `select` at the end of `getBlocks` / `syncLayer`
observes: either the shutdown signal fired, or the completion callback
delivered its boolean outcome on the channel. -/
inductive FetchOutcome where
  | interrupted
  | result (b : Bool)
deriving DecidableEq

/-- Model of `Syncer.getBlocks(jobID, blockIds)`: enqueue the ids as a layer job; a
non-nil error from `addDependencies` is returned as a failure; an immediate
`false` result means nothing was missing and returns nil; otherwise block on
the callback channel — shutdown returns an interrupt error and **either**
boolean outcome returns nil (a `false` outcome is logged, not surfaced). -/
def getBlocks {σ : Type} (runCb : JobID → Bool → σ → σ × Bool) (inDB : Hash → Bool)
    (jobID : Nat) (blockIds : List Hash) (st : QState) (s : σ)
    (awaited : FetchOutcome) : Option SyncErr :=
  let a := addDependencies runCb inDB (JobID.layer jobID) blockIds st s
  if a.errd then some SyncErr.addFailed
  else if a.res = false then none
  else
    match awaited with
    | FetchOutcome.interrupted => some SyncErr.interrupted
    | FetchOutcome.result _ => none

/-! ## The fetch-and-handle run (`handleBlock` and the fetch pipeline)

`blockQueue.handleBlock` is in `validation_queue.go`; the surrounding
`fetchQueue` worker loop (`work` / `addToPending` / `handleFetch`, file
`fetch_queue.go`) is not part of the provided sources.  Modelled from the
spec: the item queue delivers every pushed hash to the handler exactly once
(deduplicated, batched fetch pipeline; batches are modelled with one id per
batch), looking the item up in the supplied block environment `env`. -/

/-- Model of `blockQueue.handleBlockDependencies(blk)`: register the block's view
edges; on an `addDependencies` error resolve the block's hash negatively; on
an immediate (no pending) result resolve it positively. -/
def handleBlockDependencies {σ : Type} (runCb : JobID → Bool → σ → σ × Bool)
    (inDB : Hash → Bool) (b : Block) (st : QState) (s : σ) :
    QState × σ × List Hash × List Ev :=
  let a := addDependencies runCb inDB (JobID.block b.id) b.viewEdges st s
  let x :=
    if a.errd then
      let u := updateDependencies runCb b.id false a.st a.s
      (u.st, u.s, a.evs ++ u.evs)
    else (a.st, a.s, a.evs)
  if a.res = false then
    let u := updateDependencies runCb b.id true x.1 x.2.1
    (u.st, u.s, a.push, x.2.2 ++ u.evs)
  else (x.1, x.2.1, a.push, x.2.2)

/-- One iteration of the `handleBlock` loop for a requested id `h`: a missing
item resolves `h` negatively; otherwise the block is marked visited (outside
the queue mutex), fast-validated (failure resolves `h` negatively) and its
dependencies are registered. -/
def handleFetched {σ : Type} (runCb : JobID → Bool → σ → σ × Bool)
    (inDBf : σ → Hash → Bool) (env : List Block) (eligible : Hash → Bool)
    (h : Hash) (st : QState) (s : σ) : QState × σ × List Hash × List Ev :=
  match env.find? (fun b => b.id = h) with
  | none =>
    let u := updateDependencies runCb h false st s
    (u.st, u.s, [], u.evs)
  | some b =>
    let st1 : QState := { st with visited := insertSet st.visited h }
    if (fastValidation (eligible h) b).isSome then
      let u := updateDependencies runCb h false st1 s
      (u.st, u.s, [], Ev.mut MapName.vis false :: u.evs)
    else
      let r := handleBlockDependencies runCb (inDBf s) b st1 s
      (r.1, r.2.1, r.2.2.1, Ev.mut MapName.vis false :: r.2.2.2)

/-- The full system state of a fetch run: queue state, external state (for the
block jobs: the persistent store), the pending fetch queue and the event
trace. -/
structure Sys (σ : Type) where
  q : QState
  s : σ
  toFetch : List Hash
  evs : List Ev
deriving DecidableEq

/-- Modelled from the spec: the `fetchQueue` worker loop (`work` /
`addToPending` / `handleFetch` in `fetch_queue.go`, not among the provided
sources) delivers each pushed hash to the registered handler
(`vq.handleBlock`) exactly once.  One step delivers the head of the fetch
queue, appending newly requested ids to the queue. -/
def stepSys {σ : Type} (runCb : JobID → Bool → σ → σ × Bool)
    (inDBf : σ → Hash → Bool) (env : List Block) (eligible : Hash → Bool)
    (sys : Sys σ) : Sys σ :=
  match sys.toFetch with
  | [] => sys
  | h :: rest =>
    let r := handleFetched runCb inDBf env eligible h sys.q sys.s
    ⟨r.1, r.2.1, rest ++ r.2.2.1, sys.evs ++ r.2.2.2⟩

/-- Modelled from the spec: iterate the fetch pipeline `n` delivery steps. -/
def runSys {σ : Type} (runCb : JobID → Bool → σ → σ × Bool)
    (inDBf : σ → Hash → Bool) (env : List Block) (eligible : Hash → Bool) :
    Nat → Sys σ → Sys σ
  | 0, sys => sys
  | n + 1, sys => runSys runCb inDBf env eligible n (stepSys runCb inDBf env eligible sys)

/-- The callback effects in the all-positive scenario: `finishBlockCallback`
of a block job invoked with `true` performs data availability, vote validation
and mesh admission — under the premise that these succeed, its effect is to
admit the block to the store; a layer job's callback only signals a channel.
No callback errs. -/
def runCbMesh : JobID → Bool → List Hash → List Hash × Bool := fun j v db =>
  match j, v with
  | JobID.block b, true => (insertSet db b, false)
  | _, _ => (db, false)

/-- Membership in the persistent block store (`GetBlock` succeeding). -/
def meshHas (db : List Hash) (h : Hash) : Bool := db.contains h

/-! ## General lemmas about the queue operations -/

/-- Whether an event was performed while the queue mutex was held. -/
def evHeld : Ev → Bool
  | Ev.mut _ h => h
  | Ev.inv _ _ h => h
  | Ev.res _ _ => true

theorem held_append {a b : List Ev} (ha : ∀ e ∈ a, evHeld e = true)
    (hb : ∀ e ∈ b, evHeld e = true) : ∀ e ∈ a ++ b, evHeld e = true := by
  intro e he
  rcases List.mem_append.1 he with h | h
  · exact ha e h
  · exact hb e h

theorem held_app1 {a : List Ev} {b : Ev} (ha : ∀ e ∈ a, evHeld e = true)
    (hb : evHeld b = true) : ∀ e ∈ a ++ [b], evHeld e = true := by
  intro e he
  rcases List.mem_append.1 he with h | h
  · exact ha e h
  · rcases List.mem_singleton.1 h with rfl
    exact hb

/-- Every event of the waiter loop of `removefromDepMaps` (map mutations and
callback invocations alike) is performed with the mutex held. -/
theorem removeFromDepMapsAux_held {σ : Type} (runCb : JobID → Bool → σ → σ × Bool)
    (block : Hash) (valid : Bool) (ws : List JobID) :
    ∀ (st : QState) (s : σ) (doneB : List Hash) (evs : List Ev),
      (∀ e ∈ evs, evHeld e = true) →
      ∀ e ∈ (removeFromDepMapsAux runCb block valid ws st s doneB evs).evs,
        evHeld e = true := by
  induction ws with
  | nil => intro st s doneB evs h; simpa [removeFromDepMapsAux] using h
  | cons dep rest ih =>
    intro st s doneB evs h
    simp only [removeFromDepMapsAux]
    split
    · split
      · split
        · exact ih _ _ _ _ (held_app1 (held_app1 (held_app1 h rfl) rfl) rfl)
        · exact ih _ _ _ _ (held_app1 (held_app1 (held_app1 (held_app1 h rfl) rfl) rfl) rfl)
      · exact ih _ _ _ _ (held_app1 (held_app1 h rfl) rfl)
    · exact ih _ _ _ _ (held_app1 h rfl)

theorem removefromDepMaps_held {σ : Type} (runCb : JobID → Bool → σ → σ × Bool)
    (block : Hash) (valid : Bool) (doneB : List Hash) (st : QState) (s : σ) :
    ∀ e ∈ (removefromDepMaps runCb block valid doneB st s).evs, evHeld e = true := by
  unfold removefromDepMaps
  exact held_app1 (removeFromDepMapsAux_held _ _ _ _ _ _ _ _ (by simp)) rfl

theorem drainFuel_held {σ : Type} (runCb : JobID → Bool → σ → σ × Bool) (valid : Bool)
    (fuel : Nat) : ∀ (q : List Hash) (st : QState) (s : σ),
    ∀ e ∈ (drainFuel runCb valid fuel q st s).2.2, evHeld e = true := by
  induction fuel with
  | zero => intro q st s; simp [drainFuel]
  | succ n ih =>
    intro q st s
    match q with
    | [] => simp [drainFuel]
    | h :: rest =>
      simp only [drainFuel]
      intro e he
      rcases List.mem_append.1 he with h1 | h1
      · rcases List.mem_cons.1 h1 with h2 | h2
        · subst h2; rfl
        · exact removefromDepMaps_held _ _ _ _ _ _ e h2
      · exact ih _ _ _ e h1

/-- Every event of `updateDependencies` — including every relaxation callback
invocation — is performed with the queue mutex held. -/
theorem updateDependencies_held {σ : Type} (runCb : JobID → Bool → σ → σ × Bool)
    (block : Hash) (valid : Bool) (st : QState) (s : σ) :
    ∀ e ∈ (updateDependencies runCb block valid st s).evs, evHeld e = true := by
  unfold updateDependencies
  exact held_append (by decide) (drainFuel_held _ _ _ _ _ _)

theorem addDepsLoop_evs_held (jobId : JobID) (inDB : Hash → Bool) (blks : List Hash) :
    ∀ (st : QState) (deps push : List Hash) (evs : List Ev),
      (∀ e ∈ evs, evHeld e = true) →
      ∀ e ∈ (addDepsLoop jobId inDB blks st deps push evs).2.2.2, evHeld e = true := by
  induction blks with
  | nil => intro st deps push evs h; simpa [addDepsLoop] using h
  | cons id rest ih =>
    intro st deps push evs h
    simp only [addDepsLoop]
    split
    · exact ih _ _ _ _ (held_app1 h rfl)
    · split
      · exact ih _ _ _ _ h
      · exact ih _ _ _ _ (held_app1 h rfl)

/-- Every event of `addDependencies` is performed with the mutex held, except
the `depMap` store (which the source performs after `vq.Unlock()`) and the
immediate callback invocation (run after the unlock as well). -/
theorem addDependencies_evs_shape {σ : Type} (runCb : JobID → Bool → σ → σ × Bool)
    (inDB : Hash → Bool) (jobId : JobID) (blks : List Hash) (st : QState) (s : σ) :
    ∀ e ∈ (addDependencies runCb inDB jobId blks st s).evs,
      e = Ev.mut MapName.dep false ∨ e = Ev.inv jobId true false ∨ evHeld e = true := by
  simp only [addDependencies]
  split
  · intro e he
    rcases List.mem_cons.1 he with h2 | h2
    · right; right; subst h2; rfl
    · rcases List.mem_append.1 h2 with h1 | h1
      · right; right; exact addDepsLoop_evs_held _ _ _ _ _ _ _ (by simp) e h1
      · right; left; simpa using h1
  · intro e he
    rcases List.mem_cons.1 he with h2 | h2
    · right; right; subst h2; rfl
    · rcases List.mem_append.1 h2 with h1 | h1
      · right; right; exact addDepsLoop_evs_held _ _ _ _ _ _ _ (by simp) e h1
      · left; simpa using h1

/-- The relaxation of one waiter list can only shrink
`doneBlocks.length + callbacks.length`: a hash is appended to the done-queue
only when a callback was permanently removed. -/
theorem removeFromDepMapsAux_measure {σ : Type} (runCb : JobID → Bool → σ → σ × Bool)
    (block : Hash) (valid : Bool) (ws : List JobID) :
    ∀ (st : QState) (s : σ) (doneB : List Hash) (evs : List Ev),
      (removeFromDepMapsAux runCb block valid ws st s doneB evs).doneB.length +
        (removeFromDepMapsAux runCb block valid ws st s doneB evs).st.callbacks.length ≤
      doneB.length + st.callbacks.length := by
  induction ws with
  | nil => intro st s doneB evs; simp [removeFromDepMapsAux]
  | cons dep rest ih =>
    intro st s doneB evs
    simp only [removeFromDepMapsAux]
    cases hget : getA st.depMap dep with
    | none =>
      simp only [hget]
      split
      · split
        · next hcb =>
          have hmem : dep ∈ st.callbacks := List.mem_of_elem_eq_true (by simpa using hcb)
          have hlen : (st.callbacks.erase dep).length + 1 = st.callbacks.length :=
            List.length_erase_add_one hmem
          split
          · exact le_trans (ih _ _ _ _) (by simp)
          · refine le_trans (ih _ _ _ _) ?_
            cases dep <;> simp <;> omega
        · exact le_trans (ih _ _ _ _) (by simp)
      · simp_all
    | some ds =>
      simp only [hget]
      split
      · split
        · next hcb =>
          have hmem : dep ∈ st.callbacks := List.mem_of_elem_eq_true (by simpa using hcb)
          have hlen : (st.callbacks.erase dep).length + 1 = st.callbacks.length :=
            List.length_erase_add_one hmem
          split
          · exact le_trans (ih _ _ _ _) (by simp)
          · refine le_trans (ih _ _ _ _) ?_
            cases dep <;> simp <;> omega
        · exact le_trans (ih _ _ _ _) (by simp)
      · exact le_trans (ih _ _ _ _) (by simp)

theorem removefromDepMaps_measure {σ : Type} (runCb : JobID → Bool → σ → σ × Bool)
    (block : Hash) (valid : Bool) (doneB : List Hash) (st : QState) (s : σ) :
    (removefromDepMaps runCb block valid doneB st s).doneB.length +
      (removefromDepMaps runCb block valid doneB st s).st.callbacks.length ≤
    doneB.length + st.callbacks.length := by
  unfold removefromDepMaps
  simpa using removeFromDepMapsAux_measure runCb block valid
    ((getA st.reverseDepMap block).getD []) st s doneB []

/-- The drain stabilizes once the fuel reaches
`doneQueue.length + callbacks.length`: one more unit of fuel changes
nothing. -/
theorem drainFuel_measure_le {σ : Type} (runCb : JobID → Bool → σ → σ × Bool)
    (valid : Bool) : ∀ (fuel : Nat) (q : List Hash) (st : QState) (s : σ),
    q.length + st.callbacks.length ≤ fuel →
    drainFuel runCb valid (fuel + 1) q st s = drainFuel runCb valid fuel q st s := by
  intro fuel
  induction fuel with
  | zero =>
    intro q st s h
    have hq : q = [] := by
      cases q with
      | nil => rfl
      | cons a t => simp at h
    subst hq
    rfl
  | succ f ih =>
    intro q st s h
    cases q with
    | nil => rfl
    | cons hh rest =>
      have hm := removefromDepMaps_measure runCb hh valid rest st s
      simp only [drainFuel]
      rw [ih _ _ _ (by simp at h; omega)]

theorem drainFuel_stable {σ : Type} (runCb : JobID → Bool → σ → σ × Bool)
    (valid : Bool) (q : List Hash) (st : QState) (s : σ) (fuel : Nat)
    (h : q.length + st.callbacks.length ≤ fuel) :
    ∀ k : Nat, drainFuel runCb valid (fuel + k) q st s = drainFuel runCb valid fuel q st s := by
  intro k
  induction k with
  | zero => rfl
  | succ n ihn =>
    have h2 : fuel + (n + 1) = (fuel + n) + 1 := by omega
    rw [h2, drainFuel_measure_le runCb valid (fuel + n) q st s (by omega), ihn]

/-- The drain of `updateDependencies` is run with sufficient fuel: giving it
any more fuel does not change the result, so the fuel-indexed drain agrees
with the source's unbounded loop. -/
theorem updateDependencies_fuel_sufficient {σ : Type}
    (runCb : JobID → Bool → σ → σ × Bool) (block : Hash) (valid : Bool)
    (st0 : QState) (s : σ) (k : Nat) :
    drainFuel runCb valid (st0.callbacks.length + 2 + k) [block] st0 s =
      drainFuel runCb valid (st0.callbacks.length + 2) [block] st0 s :=
  drainFuel_stable runCb valid [block] st0 s (st0.callbacks.length + 2)
    (by simp; omega) k

/-- When every child of an `addDependencies` call is skipped (found in the
store without being in the queue), the child loop leaves all its accumulators
untouched. -/
theorem addDepsLoop_skip (jobId : JobID) (inDB : Hash → Bool) (blks : List Hash) :
    ∀ (st : QState) (deps push : List Hash) (evs : List Ev),
      (∀ id ∈ blks, inDB id = true ∧ inQueue st id = false) →
      addDepsLoop jobId inDB blks st deps push evs = (st, deps, push, evs) := by
  induction blks with
  | nil => intro st deps push evs _; rfl
  | cons id rest ih =>
    intro st deps push evs h
    have h1 := h id (by simp)
    simp only [addDepsLoop, h1.1, h1.2]
    simp only [Bool.false_eq_true, if_false, if_true, Bool.not_eq_true]
    exact ih _ _ _ _ (fun i hi => h i (by simp [hi]))

/-- Preservation of the await-channel invariant (status is `done` iff the
published channel is closed) by a single `setGossipBufferingStatus` call. -/
theorem gossip_inv_step (s : GossipState) (next : GStatus)
    (h : s.gossipSynced = GStatus.done ↔ s.awaitClosed = true) :
    (setGossipBufferingStatus next s).gossipSynced = GStatus.done ↔
      (setGossipBufferingStatus next s).awaitClosed = true := by
  rcases s with ⟨st, g, c⟩
  cases st <;> cases next <;>
    simp_all [setGossipBufferingStatus, notifySubscribers, isDone]

/-- The await-channel invariant holds in every state reachable from the
initial state. -/
theorem gossip_inv (l : List GStatus) :
    ∀ s : GossipState, (s.gossipSynced = GStatus.done ↔ s.awaitClosed = true) →
      ((applyStatusList l s).gossipSynced = GStatus.done ↔
        (applyStatusList l s).awaitClosed = true) := by
  induction l with
  | nil => intro s h; simpa [applyStatusList] using h
  | cons a t ih =>
    intro s h
    simpa [applyStatusList] using ih _ (gossip_inv_step s a h)

/-! ## The claim C2 scenario: an acyclic DAG on which the root callback is
never invoked

The DAG (all blocks eligible, with unique tx/atx ids, every leaf resolving
positively):
`root (layer 100) → 1`, `1 → {2, 3}`, `2 → 5`, `3 → 4`, `4 → 2`, `5` a leaf.
The fetch pipeline delivers the pushed hashes in order `1, 2, 3, 5, 4`: when
leaf `5` resolves, the relaxation wave resolves and admits block `2` through
the done-queue — which erases `2`'s `reverseDepMap` entry but **not** its
`visited` entry — and when block `4` is subsequently handled, its edge to the
already-admitted block `2` finds `2` still in `visited`, registers `4` as a
waiter on a hash that can never be resolved again, and pushes nothing.  The
run terminates with jobs `100, 1, 3, 4` pending forever. -/

/-- The block environment of the C2 scenario. -/
def envC2 : List Block :=
  [⟨1, [2, 3], [], none, none, 9⟩,
   ⟨2, [5], [], none, none, 9⟩,
   ⟨3, [4], [], none, none, 9⟩,
   ⟨4, [2], [], none, none, 9⟩,
   ⟨5, [], [], none, none, 9⟩]

/-- The initial `addDependencies(layer 100, [1], cb)` call of the C2 scenario
on an empty queue and empty store. -/
def a0C2 : AddResult (List Hash) :=
  addDependencies runCbMesh (meshHas []) (JobID.layer 100) [1] QState.init []

/-- The C2 scenario's initial system state. -/
def sys0C2 : Sys (List Hash) := ⟨a0C2.st, a0C2.s, a0C2.push, a0C2.evs⟩

/-- The C2 scenario after its five fetch deliveries. -/
def sysFC2 : Sys (List Hash) :=
  runSys runCbMesh meshHas envC2 (fun _ => true) 5 sys0C2

/-! ## Claim theorems -/

/-- Claim C1 (code bug, evaluation at the failing input).  A queue holding
the single job `block 10` with outstanding dependency set `{1, 2}`:
resolving dependency `1` with outcome `false` invokes no callback at all (the
dependency is silently dropped from the set because it is not the last
outstanding element), and subsequently resolving dependency `2` with `true`
invokes the job's callback with `true`.  The failure is never propagated as
`false` to the downstream job, contradicting the claimed (and specified)
failure propagation through the downstream cone. -/
theorem claim_C1_failure_propagation_at_failing_input :
    invocationsOf (updateDependencies (fun _ _ s => (s, false)) 1 false
      ⟨[(JobID.block 10, [1, 2])], [(1, [JobID.block 10]), (2, [JobID.block 10])],
        [JobID.block 10], [1, 2]⟩ ()).evs = [] ∧
    getA (updateDependencies (fun _ _ s => (s, false)) 1 false
      ⟨[(JobID.block 10, [1, 2])], [(1, [JobID.block 10]), (2, [JobID.block 10])],
        [JobID.block 10], [1, 2]⟩ ()).st.depMap (JobID.block 10) = some [2] ∧
    invocationsOf (updateDependencies (fun _ _ s => (s, false)) 2 true
      (updateDependencies (fun _ _ s => (s, false)) 1 false
        ⟨[(JobID.block 10, [1, 2])], [(1, [JobID.block 10]), (2, [JobID.block 10])],
          [JobID.block 10], [1, 2]⟩ ()).st ()).evs = [(JobID.block 10, true)] := by
  decide

/-- Claim C2 (code bug, evaluation at the failing input).  On the acyclic
DAG `envC2` with every block eligible and valid and every leaf resolving
positively (every resolution in the run carries `true`), the run of
`AddDependencies(layer 100, [1], cb)` terminates — the fetch queue is empty
and a further step is a strict no-op — with only blocks `5` and `2` ever
completed: the root callback is **never** invoked (not once, let alone exactly
once), the root still waits on `{1}`, and block `4` is left registered on the
already-admitted block `2`, whose stale `visited` entry (never erased for a
block resolved through the relaxation done-queue) caused `addDependencies` to
register a dependency that no event can ever resolve. -/
theorem claim_C2_topological_correctness_at_failing_input :
    sysFC2.toFetch = [] ∧
    stepSys runCbMesh meshHas envC2 (fun _ => true) sysFC2 = sysFC2 ∧
    invocationsOf sysFC2.evs = [(JobID.block 5, true), (JobID.block 2, true)] ∧
    resolutionsOf sysFC2.evs = [(5, true), (2, true)] ∧
    getA sysFC2.q.depMap (JobID.layer 100) = some [1] ∧
    getA sysFC2.q.depMap (JobID.block 1) = some [3] ∧
    getA sysFC2.q.depMap (JobID.block 4) = some [2] ∧
    getA sysFC2.q.reverseDepMap 2 = some [JobID.block 4] ∧
    sysFC2.q.visited.contains 2 = true ∧
    meshHas sysFC2.s 2 = true := by
  decide

/-- Claim C3 (code bug, evaluation at the failing input).  A layer-ids (or
epoch-atx-ids) request for hash `1` served by peers `0` and `1`: peer `0`
answers with ids `[7]`, whose recomputed hash is `99 ≠ 1`; peer `1` would
answer `[8]`, which hashes to the requested `1`.  The fetcher nevertheless
accumulates the mismatched `[7]` and stops querying — rather than discarding
the response and continuing with the next peer as claimed. -/
theorem claim_C3_hash_mismatch_at_failing_input :
    fetchLayerBlockIds (fun l => if l = [8] then 1 else 99)
      (fun p => if p = 0 then some [7] else some [8]) [(1, [0, 1])] = [7] ∧
    fetchEpochAtxs (fun l => if l = [8] then 1 else 99)
      (fun p => if p = 0 then some [7] else some [8]) [(1, [0, 1])] = [7] := by
  constructor <;> rfl

/-- Claim C4 (counterexample).  `fastValidation` does **not** reject an
eligible block with an empty (zero-length, non-nil) active set, nor one whose
atx id equals the golden id (`7` here): both return no error from
fast-validation, contradicting the claim that fast-validation rejects them. -/
theorem claim_C4_counterexample :
    fastValidation true ⟨1, [], [], some [], none, 5⟩ = none ∧
    fastValidation true ⟨2, [], [], some [3], none, 7⟩ = none := by
  decide

/-- Claim C4 (amended).  `fastValidation` rejects a repeated transaction id
(`errDupTx`) and a repeated atx id in a non-nil active set (`errDupAtx`); an
empty non-nil active set is rejected with `errZeroActiveSet` and a golden or
empty atx id with `errInvalidATXID` — but by `blockSyntacticValidation` (via
`fetchAllReferencedAtxs`), not by `fastValidation`. -/
theorem claim_C4_duplicate_rejection (golden : Nat) (b : Block) :
    (dupScan [] b.txIds = true → fastValidation true b = some SyncErr.dupTx) ∧
    (∀ l : List Nat, dupScan [] b.txIds = false → b.activeSet = some l →
      dupScan [] l = true → fastValidation true b = some SyncErr.dupAtx) ∧
    (∀ eligible handleAtxsOk dataAvailOk viewOk : Bool, b.activeSet = some [] →
      b.atxid ≠ emptyATXID → b.atxid ≠ golden →
      blockSyntacticValidation golden eligible true handleAtxsOk dataAvailOk viewOk b =
        some SyncErr.zeroActiveSet) ∧
    (∀ eligible refFetchOk handleAtxsOk dataAvailOk viewOk : Bool,
      b.atxid = emptyATXID ∨ b.atxid = golden →
      blockSyntacticValidation golden eligible refFetchOk handleAtxsOk dataAvailOk viewOk b =
        some SyncErr.invalidATXID) := by
  refine ⟨?_, ?_, ?_, ?_⟩
  · intro hd
    simp [fastValidation, validateUniqueTxAtx, hd]
  · intro l hnd has hd
    simp [fastValidation, validateUniqueTxAtx, hnd, has, hd]
  · intro eligible handleAtxsOk dataAvailOk viewOk has h1 h2
    simp [blockSyntacticValidation, fetchBlockDataForValidation, fetchAllReferencedAtxs,
      has, h1, h2]
  · intro eligible refFetchOk handleAtxsOk dataAvailOk viewOk h
    simp [blockSyntacticValidation, h]

/-- Witness for the amended claim C4, at concrete blocks. -/
theorem claim_C4_duplicate_rejection_witness :
    fastValidation true ⟨1, [], [3, 3], none, none, 5⟩ = some SyncErr.dupTx ∧
    fastValidation true ⟨1, [], [3], some [4, 4], none, 5⟩ = some SyncErr.dupAtx ∧
    blockSyntacticValidation 7 true true true true true ⟨1, [], [], some [], none, 5⟩ =
      some SyncErr.zeroActiveSet ∧
    blockSyntacticValidation 7 true true true true true ⟨1, [], [], some [2], none, 7⟩ =
      some SyncErr.invalidATXID :=
  ⟨(claim_C4_duplicate_rejection 7 _).1 (by decide),
   (claim_C4_duplicate_rejection 7 _).2.1 [4, 4] (by decide) rfl (by decide),
   (claim_C4_duplicate_rejection 7 _).2.2.1 true true true true rfl (by decide) (by decide),
   (claim_C4_duplicate_rejection 7 _).2.2.2 true true true true true (Or.inr rfl)⟩

/-- Claim C5 (counterexample).  `addDependencies` on an unknown child `4`
performs its `depMap` store with the mutex **not** held (the source stores
`vq.depMap[jobId] = dependencys` after `vq.Unlock()`), and
`updateDependencies` invokes a relaxation completion callback with the mutex
**held** (the source's `removefromDepMaps` runs callbacks inside the
`vq.Lock()` / `defer vq.Unlock()` critical section) — contradicting both
halves of the claim. -/
theorem claim_C5_counterexample :
    Ev.mut MapName.dep false ∈
      (addDependencies (fun _ _ (s : Unit) => (s, false)) (fun _ => false)
        (JobID.layer 1) [4] QState.init ()).evs ∧
    Ev.inv (JobID.block 10) true true ∈
      (updateDependencies (fun _ _ (s : Unit) => (s, false)) 1 true
        ⟨[(JobID.block 10, [1])], [(1, [JobID.block 10])], [JobID.block 10], [1]⟩ ()).evs := by
  decide

/-- Claim C5 (amended).  In `updateDependencies` / `removefromDepMaps` every
mutation of the four maps **and** every relaxation callback invocation happens
while the queue mutex is held; in `addDependencies` the callback registration
and the `reverseDepMap` registrations happen under the mutex, while the
`depMap` store and the immediate callback invocation happen after the mutex is
released. -/
theorem claim_C5_mutex_discipline {σ : Type} (runCb : JobID → Bool → σ → σ × Bool)
    (inDB : Hash → Bool) (jobId : JobID) (blks : List Hash) (block : Hash)
    (valid : Bool) (st st' : QState) (s s' : σ) :
    (∀ e ∈ (updateDependencies runCb block valid st s).evs, evHeld e = true) ∧
    (∀ e ∈ (addDependencies runCb inDB jobId blks st' s').evs,
      e = Ev.mut MapName.dep false ∨ e = Ev.inv jobId true false ∨ evHeld e = true) :=
  ⟨updateDependencies_held runCb block valid st s,
   addDependencies_evs_shape runCb inDB jobId blks st' s'⟩

/-- Witness for the amended claim C5: the initial `depMap` delete of a
concrete `updateDependencies` call is performed with the mutex held. -/
theorem claim_C5_mutex_discipline_witness : evHeld (Ev.mut MapName.dep true) = true :=
  (claim_C5_mutex_discipline (σ := Unit) (fun _ _ s => (s, false)) (fun _ => false)
      (JobID.layer 1) [] 0 true QState.init QState.init () ()).1
    (Ev.mut MapName.dep true) (by decide)

/-- Claim C6 (code bug, evaluation at the failing input).  Handling the
fetched block `7` whose view edges contain its own id: the block passes
fast-validation, is marked visited, and `addDependencies` then finds the
block's own hash in `visited`, registering the block as a waiter on itself
(`reverseDepMap[7] = [block 7]`, `depMap[block 7] = {7}`).  No callback is
invoked, no negative outcome is produced, and nothing is pushed for fetching —
the job hangs unresolved instead of the claimed hard error. -/
theorem claim_C6_self_reference_at_failing_input :
    invocationsOf (handleFetched runCbMesh meshHas [⟨7, [7], [], none, none, 1⟩]
      (fun _ => true) 7 QState.init []).2.2.2 = [] ∧
    resolutionsOf (handleFetched runCbMesh meshHas [⟨7, [7], [], none, none, 1⟩]
      (fun _ => true) 7 QState.init []).2.2.2 = [] ∧
    getA (handleFetched runCbMesh meshHas [⟨7, [7], [], none, none, 1⟩]
      (fun _ => true) 7 QState.init []).1.reverseDepMap 7 = some [JobID.block 7] ∧
    getA (handleFetched runCbMesh meshHas [⟨7, [7], [], none, none, 1⟩]
      (fun _ => true) 7 QState.init []).1.depMap (JobID.block 7) = some [7] ∧
    (handleFetched runCbMesh meshHas [⟨7, [7], [], none, none, 1⟩]
      (fun _ => true) 7 QState.init []).2.2.1 = [] := by
  decide

/-- Claim C7.  When the peer snapshot is non-empty and every peer response to
the layer-hash query carries the empty-layer sentinel, `fetchLayerHashes`
fails with `errNoBlocksInLayer` and `getLayerFromNeighbors` converts that
condition into a synthetic empty layer (zero blocks) with no error. -/
theorem claim_C7_empty_layer_not_error (peersList : List Peer)
    (responses : List (Peer × Hash))
    (rest : List (Hash × List Peer) → Except SyncErr (Nat × List Nat)) (lyr : Nat)
    (hp : peersList ≠ [])
    (hall : ∀ pr ∈ responses, pr.2 = emptyLayerHash) :
    fetchLayerHashes responses = Except.error SyncErr.noBlocksInLayer ∧
    getLayerFromNeighbors peersList responses rest lyr = Except.ok (lyr, []) := by
  have h1 : peersList.isEmpty = false := by
    cases peersList with
    | nil => exact absurd rfl hp
    | cons a t => rfl
  cases hany : (responses.any fun pr => pr.2 ≠ emptyLayerHash) with
  | false =>
    constructor
    · simp only [fetchLayerHashes]
      rw [hany]
      simp
    · simp only [getLayerFromNeighbors, fetchLayerHashes, h1]
      rw [hany]
      simp
  | true =>
    exfalso
    rcases List.any_eq_true.1 hany with ⟨pr, hpr, hne⟩
    have := hall pr hpr
    simp [this] at hne

/-- Witness for claim C7 at a concrete peer list and response set. -/
theorem claim_C7_empty_layer_not_error_witness :
    getLayerFromNeighbors [1] [(1, emptyLayerHash), (2, emptyLayerHash)]
      (fun _ => Except.error SyncErr.interrupted) 9 = Except.ok (9, []) :=
  (claim_C7_empty_layer_not_error [1] [(1, emptyLayerHash), (2, emptyLayerHash)]
    (fun _ => Except.error SyncErr.interrupted) 9 (by decide) (by decide)).2

/-- Claim C8.  The await channel is closed exactly on a transition from a
non-`done` status to `done` (same channel generation), a fresh open channel is
installed exactly on a transition from `done` to a non-`done` status,
transitions between two non-`done` statuses leave the channel untouched, and a
`done`-to-`done` call is a complete no-op; moreover in every state reachable
from the initial state the status is `done` iff the published channel is
closed — so a caller blocked on `Await()` unblocks exactly when the status
becomes `done`, and a caller subscribing after `done` sees a channel that is
already closed. -/
theorem claim_C8_await_semantics (s : GossipState) (next : GStatus) :
    ((s.gossipSynced ≠ GStatus.done ∧ next = GStatus.done) →
      ((setGossipBufferingStatus next s).awaitClosed = true ∧
        (setGossipBufferingStatus next s).awaitGen = s.awaitGen)) ∧
    ((s.gossipSynced = GStatus.done ∧ next ≠ GStatus.done) →
      ((setGossipBufferingStatus next s).awaitGen = s.awaitGen + 1 ∧
        (setGossipBufferingStatus next s).awaitClosed = false)) ∧
    ((s.gossipSynced ≠ GStatus.done ∧ next ≠ GStatus.done) →
      Await (setGossipBufferingStatus next s) = Await s) ∧
    ((s.gossipSynced = GStatus.done ∧ next = GStatus.done) →
      setGossipBufferingStatus next s = s) ∧
    (∀ l : List GStatus,
      (applyStatusList l GossipState.init).gossipSynced = GStatus.done ↔
        (applyStatusList l GossipState.init).awaitClosed = true) := by
  refine ⟨?_, ?_, ?_, ?_, fun l => gossip_inv l GossipState.init (by decide)⟩ <;>
    (rcases s with ⟨st, g, c⟩
     cases st <;> cases next <;>
       simp_all [setGossipBufferingStatus, notifySubscribers, isDone, Await])

/-- Witness for claim C8: the `pending → done` transition from the initial
state closes the channel without replacing it. -/
theorem claim_C8_await_semantics_witness :
    (setGossipBufferingStatus GStatus.done GossipState.init).awaitClosed = true ∧
    (setGossipBufferingStatus GStatus.done GossipState.init).awaitGen =
      GossipState.init.awaitGen :=
  (claim_C8_await_semantics GossipState.init GStatus.done).1 ⟨by decide, rfl⟩

/-- Claim C9 (counterexample).  A call `addDependencies(layer 7, [5], cb)`
whose only child `5` **is** in the persistent block store but is also resident
in the queue (`visited`): the child is registered as a dependency, the
function returns `true` ("pending"), no callback is invoked, and a dependency
set **is** stored — contradicting the claim for a child that is in the store
yet still in the queue. -/
theorem claim_C9_counterexample :
    (addDependencies (fun _ _ (s : Unit) => (s, false)) (fun _ => true)
      (JobID.layer 7) [5] ⟨[], [], [], [5]⟩ ()).res = true ∧
    invocationsOf (addDependencies (fun _ _ (s : Unit) => (s, false)) (fun _ => true)
      (JobID.layer 7) [5] ⟨[], [], [], [5]⟩ ()).evs = [] ∧
    getA (addDependencies (fun _ _ (s : Unit) => (s, false)) (fun _ => true)
      (JobID.layer 7) [5] ⟨[], [], [], [5]⟩ ()).st.depMap (JobID.layer 7) = some [5] := by
  decide

/-- Claim C9 (amended).  For every `addDependencies(job_id, children, cb)`
call in which every child is in the persistent block store **and** not
currently in the queue (neither awaited nor visited) — in particular whenever
`children` is empty — the callback is invoked synchronously exactly once with
`true`, the call returns `false` ("no pending") together with the callback's
error result and its state effect, no dependency set is stored in `depMap`,
and nothing is pushed to the fetch pipeline. -/
theorem claim_C9_immediate_completion {σ : Type} (runCb : JobID → Bool → σ → σ × Bool)
    (inDB : Hash → Bool) (jobId : JobID) (blks : List Hash) (st : QState) (s : σ)
    (hall : ∀ id ∈ blks, inDB id = true ∧ inQueue st id = false) :
    (addDependencies runCb inDB jobId blks st s).res = false ∧
    (addDependencies runCb inDB jobId blks st s).errd = (runCb jobId true s).2 ∧
    (addDependencies runCb inDB jobId blks st s).s = (runCb jobId true s).1 ∧
    invocationsOf (addDependencies runCb inDB jobId blks st s).evs = [(jobId, true)] ∧
    (addDependencies runCb inDB jobId blks st s).st.depMap = st.depMap ∧
    (addDependencies runCb inDB jobId blks st s).push = [] := by
  have hloop := addDepsLoop_skip jobId inDB blks
    { st with callbacks := insertSet st.callbacks jobId } [] [] []
    (fun i hi => ⟨(hall i hi).1, (hall i hi).2⟩)
  simp [addDependencies, hloop, invocationsOf]

/-- Witness for the amended claim C9 at a concrete call with both children in
the store and an empty queue. -/
theorem claim_C9_immediate_completion_witness :
    (addDependencies (fun _ _ (s : Unit) => (s, false)) (fun _ => true)
      (JobID.layer 7) [3, 4] QState.init ()).res = false ∧
    (addDependencies (fun _ _ (s : Unit) => (s, false)) (fun _ => true)
      (JobID.layer 7) [3, 4] QState.init ()).errd =
      ((fun (_ : JobID) (_ : Bool) (s : Unit) => (s, false)) (JobID.layer 7) true ()).2 ∧
    (addDependencies (fun _ _ (s : Unit) => (s, false)) (fun _ => true)
      (JobID.layer 7) [3, 4] QState.init ()).s =
      ((fun (_ : JobID) (_ : Bool) (s : Unit) => (s, false)) (JobID.layer 7) true ()).1 ∧
    invocationsOf (addDependencies (fun _ _ (s : Unit) => (s, false)) (fun _ => true)
      (JobID.layer 7) [3, 4] QState.init ()).evs = [(JobID.layer 7, true)] ∧
    (addDependencies (fun _ _ (s : Unit) => (s, false)) (fun _ => true)
      (JobID.layer 7) [3, 4] QState.init ()).st.depMap = QState.init.depMap ∧
    (addDependencies (fun _ _ (s : Unit) => (s, false)) (fun _ => true)
      (JobID.layer 7) [3, 4] QState.init ()).push = [] :=
  claim_C9_immediate_completion (fun _ _ s => (s, false)) (fun _ => true)
    (JobID.layer 7) [3, 4] QState.init () (by decide)

/-- Claim C10.  `getBlocks` returns a nil error for **either** boolean
outcome of the dependency-queue job (a `false` outcome — blocks not fetched or
not validated — is not surfaced); a non-nil error arises only when
`addDependencies` itself errs while enqueueing, or when the shutdown interrupt
fires while the job is pending. -/
theorem claim_C10_getBlocks_error_policy {σ : Type} (runCb : JobID → Bool → σ → σ × Bool)
    (inDB : Hash → Bool) (jobID : Nat) (blockIds : List Hash) (st : QState) (s : σ) :
    ((addDependencies runCb inDB (JobID.layer jobID) blockIds st s).errd = false →
      ∀ b : Bool, getBlocks runCb inDB jobID blockIds st s (FetchOutcome.result b) = none) ∧
    (∀ (out : FetchOutcome) (e : SyncErr),
      getBlocks runCb inDB jobID blockIds st s out = some e →
      (addDependencies runCb inDB (JobID.layer jobID) blockIds st s).errd = true ∨
        (out = FetchOutcome.interrupted ∧
          (addDependencies runCb inDB (JobID.layer jobID) blockIds st s).res = true)) := by
  constructor
  · intro herr b
    simp only [getBlocks, herr]
    split <;> simp_all
  · intro out e hsome
    by_cases herr : (addDependencies runCb inDB (JobID.layer jobID) blockIds st s).errd = true
    · exact Or.inl herr
    · right
      simp only [Bool.not_eq_true] at herr
      simp [getBlocks, herr] at hsome
      rcases hsome with ⟨hres, hout⟩
      cases out with
      | interrupted => exact ⟨rfl, by simpa using hres⟩
      | result b => simp at hout

/-- Witness for claim C10: a concrete pending job whose outcome is `false`
still yields a nil error. -/
theorem claim_C10_getBlocks_error_policy_witness :
    getBlocks (fun _ _ (s : Unit) => (s, false)) (fun _ => false) 1 [2] QState.init ()
      (FetchOutcome.result false) = none :=
  (claim_C10_getBlocks_error_policy (fun _ _ (s : Unit) => (s, false)) (fun _ => false)
    1 [2] QState.init ()).1 (by decide) false

end SpacemeshSync
